import Mathlib

/-!
Shallow embedding of the validator engine of `src/validators/validator.py`
(scheduler loop, weight aggregation/commit, organic request handler, and
background scoring drain), together with theorems settling the frozen claims.

Score tensors are embedded as `List ℚ`; elementwise torch operations become
`List.zipWith` / `List.map`.  Python `None` becomes `Option`, async tasks and
their resolutions become explicit data, and the aiohttp handler becomes a
function from the request data and the (externally produced) stream of
`(uid, content)` chunks to the response written and the deferred tasks added.
-/

set_option autoImplicit false

namespace CortexValidator

/-- Elementwise scalar multiplication: `a * v` on a torch tensor. -/
def vscale (a : ℚ) (v : List ℚ) : List ℚ := v.map (fun x => a * x)

/-- Elementwise addition `v + w` on torch tensors (of equal length). -/
def vadd (v w : List ℚ) : List ℚ := List.zipWith (· + ·) v w

/-- `torch.min` of a tensor (global minimum).  The source raises on an empty
tensor; theorems about normalization assume a nonempty score vector. -/
def listMin : List ℚ → ℚ
  | [] => 0
  | x :: xs => xs.foldl min x

/-- `torch.max` of a tensor (global maximum); same empty-tensor caveat. -/
def listMax : List ℚ → ℚ
  | [] => 0
  | x :: xs => xs.foldl max x

/-- The call made to `subtensor.set_weights(...)`: the uids and weights
submitted to the ledger and the `wait_for_inclusion` flag. -/
structure SubmitCall where
  uids : List Nat
  weights : List ℚ
  wait_for_inclusion : Bool
  deriving DecidableEq, Repr

/-- `set_weights(scores, config, subtensor, wallet, metagraph)`
(validator.py lines 142-153).  The global `moving_average_scores` is passed in
as an `Option` and the updated value is returned together with the ledger
submission the function performs.  `alpha = .3`; when the moving average is
`None` it is first set to `scores.clone()`, then the smoothing update runs
unconditionally. -/
def set_weights (scores : List ℚ) (moving_average_scores : Option (List ℚ))
    (uids : List Nat) : List ℚ × SubmitCall :=
  let alpha : ℚ := 3/10
  let prev : List ℚ :=
    match moving_average_scores with
    | none => scores
    | some m => m
  let updated := vadd (vscale alpha scores) (vscale (1 - alpha) prev)
  (updated, { uids := uids, weights := updated, wait_for_inclusion := false })

/-- The local values computed by one run of `update_weights`
(validator.py lines 156-172): the raw average, the min-max normalized vector
(logged only), the new moving average, and the ledger submission made. -/
structure UpdateResult where
  avg_scores : List ℚ
  normalized_scores : List ℚ
  new_moving_average : List ℚ
  call : SubmitCall
  deriving DecidableEq, Repr

/-- `update_weights(total_scores, steps_passed, ...)` (validator.py lines
156-172): `avg_scores = total_scores / (steps_passed + 1)`, min-max
normalization of `avg_scores` for display, then `set_weights(avg_scores, ...)`. -/
def update_weights (total_scores : List ℚ) (steps_passed : Nat)
    (moving_average_scores : Option (List ℚ)) (uids : List Nat) : UpdateResult :=
  let avg_scores := total_scores.map (fun x => x / ((steps_passed : ℚ) + 1))
  let min_score := listMin avg_scores
  let max_score := listMax avg_scores
  let normalized_scores :=
    if max_score - min_score ≠ 0 then
      avg_scores.map (fun x => (x - min_score) / (max_score - min_score))
    else
      avg_scores.map (fun _ => 0)
  let out := set_weights avg_scores moving_average_scores uids
  { avg_scores := avg_scores
    normalized_scores := normalized_scores
    new_moving_average := out.1
    call := out.2 }

/-- `iterations_per_set_weights = 12` (validator.py line 194). -/
def iterations_per_set_weights : Nat := 12

/-- `iterations_until_update = iterations_per_set_weights -
((steps_passed + 1) % iterations_per_set_weights)` (validator.py line 233). -/
def iterations_until_update (steps_passed : Nat) : Nat :=
  iterations_per_set_weights - ((steps_passed + 1) % iterations_per_set_weights)

/-- The two validator capabilities the scheduler can select
(`text_vali` / `image_vali`). -/
inductive Modality where
  | text
  | image
  deriving DecidableEq, Repr

/-- `selected_validator = text_vali if steps_passed % 5 in (0, 1, 2) else
image_vali` (validator.py line 229). -/
def selected_validator (steps_passed : Nat) : Modality :=
  if steps_passed % 5 ∈ ([0, 1, 2] : List Nat) then Modality.text else Modality.image

/-- The scheduler state threaded through the `while True` loop of
`query_synapse` (validator.py lines 222-244): the step counter, the running
accumulator `total_scores.tensor`, and the global `moving_average_scores`. -/
structure SchedState where
  steps_passed : Nat
  total_scores : List ℚ
  moving_average_scores : Option (List ℚ)
  deriving DecidableEq, Repr

/-- One successful cycle of the `query_synapse` loop (validator.py lines
224-240), with the score vector returned by `process_modality` and the
metagraph uids as inputs: add scores into the accumulator, compute
`iterations_until_update`, call `update_weights` when it equals 1, and
increment the step counter.  Returns the new state and the `UpdateResult` of
the commit when one fired. -/
def query_synapse_cycle (scores : List ℚ) (uids : List Nat) (st : SchedState) :
    SchedState × Option UpdateResult :=
  let total := vadd st.total_scores scores
  if iterations_until_update st.steps_passed = 1 then
    let r := update_weights total st.steps_passed st.moving_average_scores uids
    ({ steps_passed := st.steps_passed + 1
       total_scores := total
       moving_average_scores := some r.new_moving_average }, some r)
  else
    ({ steps_passed := st.steps_passed + 1
       total_scores := total
       moving_average_scores := st.moving_average_scores }, none)

/-- One digit of a decimal integer literal. -/
def digitVal (c : Char) : Option Nat :=
  if c.isDigit then some (c.toNat - 48) else none

/-- A nonempty all-digit run, read as a decimal number. -/
def digitsVal : List Char → Option Nat
  | [] => none
  | cs =>
    cs.foldl (fun acc c =>
      match acc, digitVal c with
      | some n, some d => some (10 * n + d)
      | _, _ => none) (some 0)

/-- Python `int(k)` on a string key: an optional sign followed by decimal
digits succeeds, anything else raises `ValueError` (`none` here).  The
whitespace/underscore forms Python also accepts are not exercised by any
claim and are omitted. -/
def pyInt (s : String) : Option Int :=
  match s.data with
  | '-' :: rest => (digitsVal rest).map (fun n => -(n : Int))
  | '+' :: rest => (digitsVal rest).map (fun n => (n : Int))
  | cs => (digitsVal cs).map (fun n => (n : Int))

/-- One chat message `{'role': ..., 'content': ...}`. -/
structure Message where
  role : String
  content : String
  deriving DecidableEq, Repr

/-- Insert into a Python-dict modelled as an ordered association list:
an existing key's value is overwritten in place, a new key is appended. -/
def dictInsert {α : Type} (d : List (Int × α)) (k : Int) (v : α) : List (Int × α) :=
  if (d.lookup k).isSome then
    d.map (fun p => if p.1 = k then (p.1, v) else p)
  else
    d ++ [(k, v)]

/-- The dict comprehension
`{int(k): [{'role': 'user', 'content': v}] for k, v in (await request.json()).items()}`
(validator.py line 263): `none` models the `ValueError` raised by `int(k)` on
a non-integer key. -/
def parseBody : List (String × String) → Option (List (Int × Message))
  | [] => some []
  | (k, v) :: rest =>
    match pyInt k with
    | none => none
    | some i => (parseBody rest).map (fun d => dictInsert d i ⟨"user", v⟩)

/-- One event of the lazy `text_vali.organic(...)` stream: either a
`(uid, content)` chunk, or the generator raising. -/
inductive StreamEvent where
  | chunk (uid : Int) (content : String)
  | raiseExc
  deriving DecidableEq, Repr

/-- `uid_to_response[uid] += content`: append to the entry of `uid`
(only called when `uid` is a key). -/
def writeAcc (acc : List (Int × String)) (uid : Int) (content : String) :
    List (Int × String) :=
  acc.map (fun p => if p.1 = uid then (p.1, p.2 ++ content) else p)

/-- The `async for uid, content in text_vali.organic(...)` loop (validator.py
lines 272-274) run to completion or first exception: returns the final
`uid_to_response` dict, the list of chunks written to the response stream,
and whether an exception escaped the loop.  A chunk whose uid is not a key of
`uid_to_response` raises `KeyError` before the chunk is written. -/
def runStream (acc : List (Int × String)) (written : List String) :
    List StreamEvent → List (Int × String) × List String × Bool
  | [] => (acc, written, false)
  | StreamEvent.raiseExc :: _ => (acc, written, true)
  | StreamEvent.chunk uid content :: rest =>
    if (acc.lookup uid).isSome then
      runStream (writeAcc acc uid content) (written ++ [content]) rest
    else
      (acc, written, true)

/-- Whether a stream of events runs to completion without raising: no
generator exception and every chunk's uid is a key of `acc`
(`uid_to_response`); key membership is invariant over the loop. -/
def streamOk (acc : List (Int × String)) : List StreamEvent → Bool
  | [] => true
  | StreamEvent.raiseExc :: _ => false
  | StreamEvent.chunk u _ :: rest => (acc.lookup u).isSome && streamOk acc rest

/-- The contents of the chunk events, in arrival order. -/
def chunkContents : List StreamEvent → List String
  | [] => []
  | StreamEvent.raiseExc :: rest => chunkContents rest
  | StreamEvent.chunk _ c :: rest => c :: chunkContents rest

/-- The per-worker accumulation of chunk contents over a stream. -/
def accumulate (acc : List (Int × String)) : List StreamEvent → List (Int × String)
  | [] => acc
  | StreamEvent.raiseExc :: rest => accumulate acc rest
  | StreamEvent.chunk u c :: rest => accumulate (writeAcc acc u c) rest

/-- Whether an event makes the streaming loop raise when the accumulation
dict is `acc`: the generator raising, or a chunk whose uid is not a key
(`KeyError` in `uid_to_response[uid] += content`). -/
def faults (acc : List (Int × String)) : StreamEvent → Bool
  | StreamEvent.raiseExc => true
  | StreamEvent.chunk u _ => (acc.lookup u).isNone

/-- A deferred scoring task as created by the handler: the
`wait_for_coro_with_limit(text_vali.score_responses(query_responses=...,
uid_to_question=..., metagraph=...), 60)` coroutine, captured by its
arguments. -/
structure DeferredTask where
  query_responses : List (Int × String)
  uid_to_question : List (Int × Message)
  timeout : Nat
  deriving DecidableEq, Repr

/-- The handler's observable result: an early `Response(status=...)`, or the
prepared `StreamResponse` together with everything written to it (returning
it completes the HTTP response normally). -/
inductive HandlerResult where
  | statusResponse (status : Nat)
  | streamResponse (written : List String)
  deriving DecidableEq, Repr

/-- `process_text_validator(request)` (validator.py lines 256-289).  Inputs:
the configured `EXPECTED_ACCESS_KEY`, the request's `access-key` header
(`none` when absent), the JSON body as key/value pairs, the stream of events
the external capability produces, and the current `organic_scoring_tasks`
set (as a list).  Output: the handler result and the task set afterwards. -/
def process_text_validator (expected_access_key : String)
    (access_key : Option String) (body : List (String × String))
    (events : List StreamEvent) (tasks : List DeferredTask) :
    HandlerResult × List DeferredTask :=
  if access_key ≠ some expected_access_key then
    (HandlerResult.statusResponse 401, tasks)
  else
    match parseBody body with
    | none => (HandlerResult.statusResponse 400, tasks)
    | some messages_dict =>
      let uid_to_response := messages_dict.map (fun p => (p.1, ""))
      match runStream uid_to_response [] events with
      | (acc, written, false) =>
        (HandlerResult.streamResponse written,
         tasks ++ [{ query_responses := acc
                     uid_to_question := messages_dict
                     timeout := 60 }])
      | (_, written, true) =>
        (HandlerResult.streamResponse (written ++ ["<<internal error>>"]), tasks)

/-- The return value of the external `text_vali.score_responses` coroutine,
kept opaque except for its first component `data[0]`, the score-contribution
vector the drain adds into the accumulator. -/
structure ScoreResponsesResult where
  contribution : List ℚ
  deriving DecidableEq, Repr

/-- How the awaited scoring coroutine ran inside `wait_for_coro_with_limit`:
it either exceeded the timeout or produced the `score_responses` result. -/
inductive CoroRun where
  | timedOut
  | value (data : ScoreResponsesResult)
  deriving DecidableEq, Repr

/-- `wait_for_coro_with_limit(coro, timeout)` (validator.py lines 247-253):
`(False, None)` on `asyncio.TimeoutError`, otherwise `(True, result)`. -/
def wait_for_coro_with_limit : CoroRun → Bool × Option ScoreResponsesResult
  | CoroRun.timedOut => (false, none)
  | CoroRun.value data => (true, some data)

/-- What `task.exception()` / `task.result()` reveal about a resolved deferred
task: it raised, or it ran and returns `wait_for_coro_with_limit`'s value. -/
inductive TaskFate where
  | excepted
  | ran (run : CoroRun)
  deriving DecidableEq, Repr

/-- A member of the `organic_scoring_tasks` set: distinct task objects may
have equal fates, so identity is a separate id. -/
structure Task where
  id : Nat
  fate : TaskFate
  deriving DecidableEq, Repr

/-- Processing of one resolved task by `consume_organic_scoring` (validator.py
lines 202-212): an exception is logged and discarded; `(False, _)` (timeout)
hits `continue`; otherwise `total_scores.tensor += data[0]`.  The
`(True, none)` arm is never produced by `wait_for_coro_with_limit`. -/
def drainTask (acc : List ℚ) : TaskFate → List ℚ
  | TaskFate.excepted => acc
  | TaskFate.ran run =>
    match wait_for_coro_with_limit run with
    | (false, _) => acc
    | (true, some data) => vadd acc data.contribution
    | (true, none) => acc

/-- One pass of the drain body over a batch of completed tasks (validator.py
lines 200-213): fold every completed task into the accumulator, then
`organic_scoring_tasks.difference_update(completed)`. -/
def consume_step (acc : List ℚ) (tasks completed : List Task) :
    List ℚ × List Task :=
  (completed.foldl (fun a t => drainTask a t.fate) acc,
   tasks.filter (fun t => !(completed.any (fun c => c.id == t.id))))

/-! ## Helper lemmas -/

lemma vadd_vscale_zipWith (a b : ℚ) (s m : List ℚ) :
    vadd (vscale a s) (vscale b m) =
      List.zipWith (fun x y => a * x + b * y) s m := by
  induction s generalizing m with
  | nil => cases m <;> rfl
  | cons x xs ih =>
    cases m with
    | nil => rfl
    | cons y ys => simp [vadd, vscale] at ih ⊢

lemma zipWith_affine_self (a b : ℚ) (h : a + b = 1) (s : List ℚ) :
    List.zipWith (fun x y => a * x + b * y) s s = s := by
  induction s with
  | nil => rfl
  | cons x xs ih =>
    simp only [List.zipWith_cons_cons, ih, List.cons.injEq, and_true]
    calc a * x + b * x = (a + b) * x := by ring
    _ = x := by rw [h, one_mul]

lemma set_weights_fst_none (scores : List ℚ) (uids : List Nat) :
    (set_weights scores none uids).1 = scores := by
  show vadd (vscale (3/10) scores) (vscale (1 - 3/10) scores) = scores
  rw [vadd_vscale_zipWith]
  exact zipWith_affine_self _ _ (by norm_num) scores

lemma set_weights_fst_some (scores m : List ℚ) (uids : List Nat) :
    (set_weights scores (some m) uids).1 =
      List.zipWith (fun raw prev => 3/10 * raw + 7/10 * prev) scores m := by
  show vadd (vscale (3/10) scores) (vscale (1 - 3/10) m) = _
  rw [vadd_vscale_zipWith]
  norm_num

lemma map_const_zero (l : List ℚ) :
    l.map (fun _ => (0 : ℚ)) = List.replicate l.length 0 := by
  induction l with
  | nil => rfl
  | cons x xs ih => simp [ih, List.replicate]

lemma minmax_norm_eq (A : List ℚ) :
    (if listMax A - listMin A ≠ 0 then
      A.map (fun x => (x - listMin A) / (listMax A - listMin A))
    else A.map (fun _ => (0 : ℚ))) =
    (if listMax A = listMin A then List.replicate A.length 0
    else A.map (fun x => (x - listMin A) / (listMax A - listMin A))) := by
  by_cases h : listMax A = listMin A
  · rw [if_neg (by simp [h]), if_pos h, map_const_zero]
  · rw [if_pos (sub_ne_zero.mpr h), if_neg h]

/-! ## Claims -/

/-- C1: each scheduler cycle computes
`iterations_until_commit = 12 - ((s + 1) % 12)` and commits exactly when this
equals 1, i.e. exactly when `(s + 1) % 12 = 11` (equivalently `s % 12 = 10`,
once per 12 cycles, with period 12); the commit hands
`accumulator / (s + 1)` to the weight committer `set_weights` as the raw
average. -/
theorem c1_commit_cadence :
    (∀ s : Nat, iterations_until_update s = 12 - ((s + 1) % 12)) ∧
    (∀ s : Nat, iterations_until_update s = 1 ↔ (s + 1) % 12 = 11) ∧
    (∀ s : Nat, (s + 1) % 12 = 11 ↔ s % 12 = 10) ∧
    (∀ s : Nat, iterations_until_update (s + 12) = iterations_until_update s) ∧
    (∀ (scores : List ℚ) (uids : List Nat) (st : SchedState),
      (query_synapse_cycle scores uids st).2 =
        if (st.steps_passed + 1) % 12 = 11 then
          some (update_weights (vadd st.total_scores scores) st.steps_passed
            st.moving_average_scores uids)
        else none) ∧
    (∀ (total : List ℚ) (s : Nat) (ma : Option (List ℚ)) (uids : List Nat),
      (update_weights total s ma uids).avg_scores =
        total.map (fun x => x / ((s : ℚ) + 1))) ∧
    (∀ (total : List ℚ) (s : Nat) (ma : Option (List ℚ)) (uids : List Nat),
      (update_weights total s ma uids).new_moving_average =
        (set_weights (total.map (fun x => x / ((s : ℚ) + 1))) ma uids).1) :=
  ⟨fun _ => rfl,
   fun s => by
    simp only [iterations_until_update, iterations_per_set_weights]
    omega,
   fun s => by omega,
   fun s => by
    simp only [iterations_until_update, iterations_per_set_weights]
    omega,
   fun scores uids st => by
    by_cases h : (st.steps_passed + 1) % 12 = 11
    · rw [if_pos h]
      have h2 : iterations_until_update st.steps_passed = 1 := by
        simp only [iterations_until_update, iterations_per_set_weights]
        omega
      simp [query_synapse_cycle, h2]
    · rw [if_neg h]
      have h2 : ¬ iterations_until_update st.steps_passed = 1 := by
        simp only [iterations_until_update, iterations_per_set_weights]
        omega
      simp [query_synapse_cycle, h2],
   fun _ _ _ _ => rfl,
   fun _ _ _ _ => rfl⟩

/-- C2: capability selection is a pure function of the step counter: text is
selected iff `s % 5 ∈ {0, 1, 2}`, the sequence for steps 0..4 is
[text, text, text, image, image], and the pattern has period 5. -/
theorem c2_capability_selection :
    (∀ s : Nat, selected_validator s = Modality.text ↔
      (s % 5 = 0 ∨ s % 5 = 1 ∨ s % 5 = 2)) ∧
    ((List.range 5).map selected_validator =
      [Modality.text, Modality.text, Modality.text,
       Modality.image, Modality.image]) ∧
    (∀ s : Nat, selected_validator (s + 5) = selected_validator s) := by
  refine ⟨fun s => ?_, by decide, fun s => ?_⟩
  · have hmem : (s % 5 ∈ ([0, 1, 2] : List Nat)) ↔
        (s % 5 = 0 ∨ s % 5 = 1 ∨ s % 5 = 2) := by simp
    by_cases h : s % 5 ∈ ([0, 1, 2] : List Nat)
    · simp only [selected_validator, if_pos h]
      simp [hmem.mp h]
    · simp only [selected_validator, if_neg h]
      constructor
      · intro hx
        exact absurd hx (by decide)
      · intro hx
        exact absurd (hmem.mpr hx) h
  · simp only [selected_validator, Nat.add_mod_right]

/-- C3: on the first commit (`moving_average_scores` is `None`) the resulting
moving average equals the raw vector unchanged; on a subsequent commit it
becomes `0.3 * raw + 0.7 * previous` elementwise. -/
theorem c3_moving_average_update :
    (∀ (scores : List ℚ) (uids : List Nat),
      (set_weights scores none uids).1 = scores) ∧
    (∀ (scores m : List ℚ) (uids : List Nat),
      (set_weights scores (some m) uids).1 =
        List.zipWith (fun raw prev => 3/10 * raw + 7/10 * prev) scores m) :=
  ⟨set_weights_fst_none, set_weights_fst_some⟩

/-- C4 counterexample: with a pre-existing moving average `[0]`, committing
the raw vector `[1]` twice in a row changes the moving average on the second
call (`[3/10]` then `[51/100]`), so the update is not idempotent from an
arbitrary prior state. -/
theorem c4_counterexample :
    (set_weights [1] (some ((set_weights [1] (some [0]) []).1)) []).1 ≠
      (set_weights [1] (some [0]) []).1 := by
  rw [set_weights_fst_some, set_weights_fst_some]
  norm_num

/-- C4 (amended): when the moving-average vector is uninitialized before the
first of the two commits - or already equals the raw vector - committing the
same raw vector twice in a row leaves the moving average unchanged after the
second call, because `0.3 * raw + 0.7 * raw = raw` elementwise. -/
theorem c4_idempotent_from_uninitialized :
    ∀ (raw : List ℚ) (uids uids' : List Nat),
      (set_weights raw (some ((set_weights raw none uids).1)) uids').1 =
          (set_weights raw none uids).1 ∧
      (set_weights raw (some raw) uids').1 = raw := by
  intro raw uids uids'
  rw [set_weights_fst_none]
  constructor <;>
    exact (set_weights_fst_some raw raw uids').trans
      (zipWith_affine_self _ _ (by norm_num) raw)

/-- C5: at each commit, the min-max normalization of the raw average
(`(x - min) / (max - min)`, all-zero when max = min) is computed for display
only; the submission made to the ledger carries the smoothed moving average
produced by `set_weights` on the raw average - not the normalized vector -
for all supplied uids, with `wait_for_inclusion = False`. -/
theorem c5_commit_submits_moving_average :
    ∀ (total : List ℚ) (s : Nat) (ma : Option (List ℚ)) (uids : List Nat),
      total ≠ [] →
      ((update_weights total s ma uids).call.weights =
          (update_weights total s ma uids).new_moving_average) ∧
      ((update_weights total s ma uids).call.uids = uids) ∧
      ((update_weights total s ma uids).call.wait_for_inclusion = false) ∧
      ((update_weights total s ma uids).new_moving_average =
        (set_weights (update_weights total s ma uids).avg_scores ma uids).1) ∧
      ((update_weights total s ma uids).normalized_scores =
        if listMax (update_weights total s ma uids).avg_scores =
            listMin (update_weights total s ma uids).avg_scores then
          List.replicate (update_weights total s ma uids).avg_scores.length 0
        else
          (update_weights total s ma uids).avg_scores.map (fun x =>
            (x - listMin (update_weights total s ma uids).avg_scores) /
              (listMax (update_weights total s ma uids).avg_scores -
                listMin (update_weights total s ma uids).avg_scores))) := by
  intro total s ma uids _
  exact ⟨rfl, rfl, rfl, rfl,
    minmax_norm_eq (total.map (fun x => x / ((s : ℚ) + 1)))⟩

/-- C5 witness: the theorem instantiated at the concrete commit of
`total = [1, 2, 3, 4]` after step 1 with no previous moving average. -/
theorem c5_commit_submits_moving_average_witness :
    ((update_weights [1, 2, 3, 4] 1 none [0, 1, 2, 3]).call.weights =
        (update_weights [1, 2, 3, 4] 1 none [0, 1, 2, 3]).new_moving_average) ∧
    ((update_weights [1, 2, 3, 4] 1 none [0, 1, 2, 3]).call.uids = [0, 1, 2, 3]) ∧
    ((update_weights [1, 2, 3, 4] 1 none [0, 1, 2, 3]).call.wait_for_inclusion = false) ∧
    ((update_weights [1, 2, 3, 4] 1 none [0, 1, 2, 3]).new_moving_average =
      (set_weights (update_weights [1, 2, 3, 4] 1 none [0, 1, 2, 3]).avg_scores
        none [0, 1, 2, 3]).1) ∧
    ((update_weights [1, 2, 3, 4] 1 none [0, 1, 2, 3]).normalized_scores =
      if listMax (update_weights [1, 2, 3, 4] 1 none [0, 1, 2, 3]).avg_scores =
          listMin (update_weights [1, 2, 3, 4] 1 none [0, 1, 2, 3]).avg_scores then
        List.replicate (update_weights [1, 2, 3, 4] 1 none [0, 1, 2, 3]).avg_scores.length 0
      else
        (update_weights [1, 2, 3, 4] 1 none [0, 1, 2, 3]).avg_scores.map (fun x =>
          (x - listMin (update_weights [1, 2, 3, 4] 1 none [0, 1, 2, 3]).avg_scores) /
            (listMax (update_weights [1, 2, 3, 4] 1 none [0, 1, 2, 3]).avg_scores -
              listMin (update_weights [1, 2, 3, 4] 1 none [0, 1, 2, 3]).avg_scores))) :=
  c5_commit_submits_moving_average [1, 2, 3, 4] 1 none [0, 1, 2, 3] (by simp)

/-! ## Stream lemmas -/

lemma writeAcc_lookup_isSome (u : Int) (c : String) (acc : List (Int × String))
    (v : Int) : ((writeAcc acc u c).lookup v).isSome = (acc.lookup v).isSome := by
  induction acc with
  | nil => rfl
  | cons p ps ih =>
    obtain ⟨k, s⟩ := p
    simp only [writeAcc, List.map_cons] at ih ⊢
    by_cases hk : k = u
    · simp only [if_pos hk]
      cases hbeq : (v == k) <;> simp [List.lookup, hbeq, ih]
    · simp only [if_neg hk]
      cases hbeq : (v == k) <;> simp [List.lookup, hbeq, ih]

lemma streamOk_writeAcc (u : Int) (c : String) (acc : List (Int × String))
    (evs : List StreamEvent) : streamOk (writeAcc acc u c) evs = streamOk acc evs := by
  induction evs with
  | nil => rfl
  | cons e rest ih =>
    cases e with
    | raiseExc => rfl
    | chunk u' c' => simp [streamOk, writeAcc_lookup_isSome, ih]

lemma accumulate_lookup_isSome (acc : List (Int × String)) (evs : List StreamEvent)
    (v : Int) : ((accumulate acc evs).lookup v).isSome = (acc.lookup v).isSome := by
  induction evs generalizing acc with
  | nil => rfl
  | cons e rest ih =>
    cases e with
    | raiseExc => exact ih acc
    | chunk u c => rw [accumulate, ih, writeAcc_lookup_isSome]

lemma runStream_ok (acc : List (Int × String)) (w : List String)
    (evs : List StreamEvent) (h : streamOk acc evs = true) :
    runStream acc w evs = (accumulate acc evs, w ++ chunkContents evs, false) := by
  induction evs generalizing acc w with
  | nil => simp [runStream, accumulate, chunkContents]
  | cons e rest ih =>
    cases e with
    | raiseExc => simp [streamOk] at h
    | chunk u c =>
      simp only [streamOk, Bool.and_eq_true] at h
      simp only [runStream, accumulate, chunkContents]
      rw [if_pos h.1, ih _ _ (by rw [streamOk_writeAcc]; exact h.2)]
      simp

lemma runStream_append_ok (acc : List (Int × String)) (w : List String)
    (pre evs : List StreamEvent) (h : streamOk acc pre = true) :
    runStream acc w (pre ++ evs) =
      runStream (accumulate acc pre) (w ++ chunkContents pre) evs := by
  induction pre generalizing acc w with
  | nil => simp [accumulate, chunkContents]
  | cons e rest ih =>
    cases e with
    | raiseExc => simp [streamOk] at h
    | chunk u c =>
      simp only [streamOk, Bool.and_eq_true] at h
      simp only [List.cons_append, runStream, accumulate, chunkContents,
        List.append_eq]
      rw [if_pos h.1, ih _ _ (by rw [streamOk_writeAcc]; exact h.2)]
      simp

lemma runStream_fault (acc : List (Int × String)) (w : List String)
    (pre : List StreamEvent) (e : StreamEvent) (rest : List StreamEvent)
    (hok : streamOk acc pre = true) (hf : faults acc e = true) :
    runStream acc w (pre ++ e :: rest) =
      (accumulate acc pre, w ++ chunkContents pre, true) := by
  rw [runStream_append_ok _ _ _ _ hok]
  cases e with
  | raiseExc => rfl
  | chunk u c =>
    simp only [faults] at hf
    simp only [runStream]
    rw [if_neg ?_]
    rw [accumulate_lookup_isSome]
    simp only [Option.isNone_iff_eq_none] at hf
    simp [hf]

lemma parseBody_eq_none (body : List (String × String)) (k v : String)
    (hmem : (k, v) ∈ body) (hk : pyInt k = none) : parseBody body = none := by
  induction body with
  | nil => cases hmem
  | cons p rest ih =>
    obtain ⟨k', v'⟩ := p
    simp only [parseBody]
    cases hpk : pyInt k' with
    | none => rfl
    | some i =>
      rcases List.mem_cons.mp hmem with heq | hmem'
      · cases heq
        simp [hk] at hpk
      · rw [ih hmem']
        rfl

lemma filter_not_filter {α : Type} (p : α → Bool) (l : List α) :
    (l.filter (fun x => !(p x))).filter p = [] := by
  induction l with
  | nil => rfl
  | cons x xs ih => cases h : p x <;> simp [List.filter_cons, h, ih]

/-- C6: an organic request whose access-key header differs from the expected
value gets status 401 and leaves the deferred-task set unchanged; an
authorized request with any worker-ID key not parseable as an integer gets
status 400. -/
theorem c6_organic_auth_and_key_validation :
    (∀ (expected : String) (access_key : Option String)
        (body : List (String × String)) (events : List StreamEvent)
        (tasks : List DeferredTask),
      access_key ≠ some expected →
      process_text_validator expected access_key body events tasks =
        (HandlerResult.statusResponse 401, tasks)) ∧
    (∀ (expected : String) (body : List (String × String))
        (events : List StreamEvent) (tasks : List DeferredTask) (k v : String),
      (k, v) ∈ body → pyInt k = none →
      process_text_validator expected (some expected) body events tasks =
        (HandlerResult.statusResponse 400, tasks)) := by
  constructor
  · intro expected access_key body events tasks h
    simp [process_text_validator, h]
  · intro expected body events tasks k v hmem hk
    simp [process_text_validator, parseBody_eq_none body k v hmem hk]

/-- C6 witness: a wrong key gives 401 with no task created; body key "abc"
(with the right access key) gives 400. -/
theorem c6_organic_auth_and_key_validation_witness :
    process_text_validator "hello" (some "wrong") [("1", "hi")] [] [] =
      (HandlerResult.statusResponse 401, []) ∧
    process_text_validator "hello" (some "hello") [("abc", "hi")] [] [] =
      (HandlerResult.statusResponse 400, []) :=
  ⟨c6_organic_auth_and_key_validation.1 "hello" (some "wrong") [("1", "hi")] [] []
      (by decide),
   c6_organic_auth_and_key_validation.2 "hello" [("abc", "hi")] [] [] "abc" "hi"
      (List.mem_singleton.mpr rfl) rfl⟩

/-- C7: for an authorized request whose stream completes without fault, every
chunk is appended to its worker's accumulated text and forwarded verbatim in
arrival order, and one deferred task scoring the accumulated
(worker, full-response) pairs against the original prompts under a 60-unit
timeout is appended to the shared task set; in particular for prompts
`{"1": "hi"}` and chunks `[(1, "He"), (1, "llo")]` the caller observes
`["He", "llo"]` (concatenation "Hello") and the task receives `[(1, "Hello")]`. -/
theorem c7_organic_stream_and_deferred_task :
    (∀ (expected : String) (body : List (String × String))
        (md : List (Int × Message)) (events : List StreamEvent)
        (tasks : List DeferredTask),
      parseBody body = some md →
      streamOk (md.map (fun p => (p.1, ""))) events = true →
      process_text_validator expected (some expected) body events tasks =
        (HandlerResult.streamResponse (chunkContents events),
         tasks ++ [{ query_responses := accumulate (md.map (fun p => (p.1, ""))) events
                     uid_to_question := md
                     timeout := 60 }])) ∧
    (∀ tasks : List DeferredTask,
      process_text_validator "key" (some "key") [("1", "hi")]
          [StreamEvent.chunk 1 "He", StreamEvent.chunk 1 "llo"] tasks =
        (HandlerResult.streamResponse ["He", "llo"],
         tasks ++ [{ query_responses := [(1, "Hello")]
                     uid_to_question := [(1, ⟨"user", "hi"⟩)]
                     timeout := 60 }])) ∧
    String.join ["He", "llo"] = "Hello" := by
  have main : ∀ (expected : String) (body : List (String × String))
      (md : List (Int × Message)) (events : List StreamEvent)
      (tasks : List DeferredTask),
      parseBody body = some md →
      streamOk (md.map (fun p => (p.1, ""))) events = true →
      process_text_validator expected (some expected) body events tasks =
        (HandlerResult.streamResponse (chunkContents events),
         tasks ++ [{ query_responses := accumulate (md.map (fun p => (p.1, ""))) events
                     uid_to_question := md
                     timeout := 60 }]) := by
    intro expected body md events tasks hparse hok
    simp only [process_text_validator, hparse]
    rw [if_neg (by simp)]
    rw [runStream_ok _ _ _ hok]
    simp
  refine ⟨main, fun tasks => ?_, rfl⟩
  have h := main "key" [("1", "hi")] [(1, ⟨"user", "hi"⟩)]
    [StreamEvent.chunk 1 "He", StreamEvent.chunk 1 "llo"] tasks rfl rfl
  exact h.trans (by rfl)

/-- C7 witness: the theorem applied to the concrete request of the claim,
with hypotheses evaluated. -/
theorem c7_organic_stream_and_deferred_task_witness :
    parseBody [("1", "hi")] = some [(1, ⟨"user", "hi"⟩)] ∧
    streamOk [(1, "")] [StreamEvent.chunk 1 "He", StreamEvent.chunk 1 "llo"] = true ∧
    process_text_validator "key" (some "key") [("1", "hi")]
        [StreamEvent.chunk 1 "He", StreamEvent.chunk 1 "llo"] [] =
      (HandlerResult.streamResponse
        (chunkContents [StreamEvent.chunk 1 "He", StreamEvent.chunk 1 "llo"]),
       [] ++ [{ query_responses :=
                  accumulate [(1, "")]
                    [StreamEvent.chunk 1 "He", StreamEvent.chunk 1 "llo"]
                uid_to_question := [(1, ⟨"user", "hi"⟩)]
                timeout := 60 }]) :=
  ⟨rfl, rfl,
   c7_organic_stream_and_deferred_task.1 "key" [("1", "hi")] [(1, ⟨"user", "hi"⟩)]
     [StreamEvent.chunk 1 "He", StreamEvent.chunk 1 "llo"] [] rfl rfl⟩

/-- C8: the drain discards a task that raised and a task whose
`wait_for_coro_with_limit` timed out (no contribution either way), adds the
contribution of a successful task into the accumulator, folds a completed
batch in that way, and removes every observed task from the set regardless of
outcome. -/
theorem c8_drain_discards_and_accumulates :
    (∀ acc : List ℚ, drainTask acc TaskFate.excepted = acc) ∧
    (∀ acc : List ℚ, drainTask acc (TaskFate.ran CoroRun.timedOut) = acc) ∧
    (∀ (acc : List ℚ) (r : ScoreResponsesResult),
      drainTask acc (TaskFate.ran (CoroRun.value r)) = vadd acc r.contribution) ∧
    (∀ (acc : List ℚ) (tasks completed : List Task),
      (consume_step acc tasks completed).1 =
        completed.foldl (fun a t => drainTask a t.fate) acc) ∧
    (∀ (acc : List ℚ) (tasks completed : List Task),
      (consume_step acc tasks completed).2.filter
        (fun t => completed.any (fun c => c.id == t.id)) = []) :=
  ⟨fun _ => rfl, fun _ => rfl, fun _ _ => rfl, fun _ _ _ => rfl,
   fun _ tasks completed =>
     filter_not_filter (fun t => completed.any (fun c => c.id == t.id)) tasks⟩

/-- C9: when the streaming phase raises (a generator exception or a chunk for
an unknown worker), the handler writes the fixed sentinel `<<internal error>>`
after the chunks already forwarded, forwards nothing further, and still
returns the stream response (the HTTP response completes normally). -/
theorem c9_midstream_failure_sentinel :
    ∀ (expected : String) (body : List (String × String))
      (md : List (Int × Message)) (pre : List StreamEvent) (e : StreamEvent)
      (rest : List StreamEvent) (tasks : List DeferredTask),
      parseBody body = some md →
      streamOk (md.map (fun p => (p.1, ""))) pre = true →
      faults (md.map (fun p => (p.1, ""))) e = true →
      (process_text_validator expected (some expected) body (pre ++ e :: rest)
          tasks).1 =
        HandlerResult.streamResponse (chunkContents pre ++ ["<<internal error>>"]) := by
  intro expected body md pre e rest tasks hparse hok hf
  simp only [process_text_validator, hparse]
  rw [if_neg (by simp)]
  rw [runStream_fault _ _ _ _ _ hok hf]
  simp

/-- C9 witness: with prompts for worker 1, chunk "He" then a generator
exception yields the stream ["He", "<<internal error>>"] and a normal
response. -/
theorem c9_midstream_failure_sentinel_witness :
    parseBody [("1", "hi")] = some [(1, ⟨"user", "hi"⟩)] ∧
    streamOk [(1, "")] [StreamEvent.chunk 1 "He"] = true ∧
    faults [(1, "")] StreamEvent.raiseExc = true ∧
    (process_text_validator "key" (some "key") [("1", "hi")]
        ([StreamEvent.chunk 1 "He"] ++ StreamEvent.raiseExc :: []) []).1 =
      HandlerResult.streamResponse
        (chunkContents [StreamEvent.chunk 1 "He"] ++ ["<<internal error>>"]) :=
  ⟨rfl, rfl, rfl,
   c9_midstream_failure_sentinel "key" [("1", "hi")] [(1, ⟨"user", "hi"⟩)]
     [StreamEvent.chunk 1 "He"] StreamEvent.raiseExc [] [] rfl rfl rfl⟩

/-- C10: when a chunk names a worker that is not a key of the prompt map, the
per-worker accumulation raises, the faulting chunk is never forwarded (only
the chunks before it plus the sentinel are written), and no deferred task is
created: the shared task set is returned unchanged. -/
theorem c10_unknown_worker_no_deferred_task :
    ∀ (expected : String) (body : List (String × String))
      (md : List (Int × Message)) (pre : List StreamEvent) (u : Int) (c : String)
      (rest : List StreamEvent) (tasks : List DeferredTask),
      parseBody body = some md →
      streamOk (md.map (fun p => (p.1, ""))) pre = true →
      ((md.map (fun p => (p.1, ""))).lookup u) = none →
      process_text_validator expected (some expected) body
          (pre ++ StreamEvent.chunk u c :: rest) tasks =
        (HandlerResult.streamResponse (chunkContents pre ++ ["<<internal error>>"]),
         tasks) := by
  intro expected body md pre u c rest tasks hparse hok hu
  simp only [process_text_validator, hparse]
  rw [if_neg (by simp)]
  rw [runStream_fault _ _ _ _ _ hok (by simp [faults, hu])]
  simp

/-- C10 witness: prompts for worker 1 only, chunk "He" for worker 1 then a
chunk for unknown worker 2: the stream is ["He", "<<internal error>>"], the
chunk "oops" is not forwarded, and the task set stays empty. -/
theorem c10_unknown_worker_no_deferred_task_witness :
    parseBody [("1", "hi")] = some [(1, ⟨"user", "hi"⟩)] ∧
    streamOk [(1, "")] [StreamEvent.chunk 1 "He"] = true ∧
    ([(1, "")] : List (Int × String)).lookup 2 = none ∧
    process_text_validator "key" (some "key") [("1", "hi")]
        ([StreamEvent.chunk 1 "He"] ++ StreamEvent.chunk 2 "oops" :: []) [] =
      (HandlerResult.streamResponse
        (chunkContents [StreamEvent.chunk 1 "He"] ++ ["<<internal error>>"]), []) :=
  ⟨rfl, rfl, rfl,
   c10_unknown_worker_no_deferred_task "key" [("1", "hi")] [(1, ⟨"user", "hi"⟩)]
     [StreamEvent.chunk 1 "He"] 2 "oops" [] [] rfl rfl rfl⟩

end CortexValidator
